import Mathlib

/-!
# Verification of the content-repurposer transcript pipeline

Shallow embedding of the core of the repository:

* `src/services/transcriptService.js` — URL-to-id extraction (`getVideoId`),
  transcript refinement (`refineTranscript`, `refineBatchWithGemini`);
* `src/services/alternativeTranscriptService.js` — the alternative provider's
  `refineTranscript` (with the placeholder short-circuit) and
  `generateBasicTranscript` (placeholder synthesis);
* `src/services/blogGeneratorService.js` — article composition
  (`generateBlogFromTranscript`);
* `src/controllers/combinedController.js` — the two-tier acquisition
  orchestration of `processYouTubeUrl` and its cache key.

External effects (the YouTube fetchers and the Gemini generative service) are
modelled as explicit inputs: each upstream call site takes the outcome the
upstream would have produced, so every code path of the JavaScript is a path
of the Lean functions.
-/

/-- A transcript segment, mirroring the open JavaScript objects flowing through
the pipeline.  Raw segments from a provider carry `text`/`start`/`duration`
(and `isUnavailableMessage = true` when synthesized by
`generateBasicTranscript`); refinement adds `original` and possibly
`refinementFailed`.  JavaScript's object spread `{...segment, ...}` preserves
all fields, which the single structure type makes explicit: a field absent on
a JS object is `none` / `false` here. -/
structure Seg where
  text : String
  start : Int
  duration : Int
  isUnavailableMessage : Bool := false
  original : Option String := none
  refinementFailed : Bool := false
deriving DecidableEq, Repr

/-- Outcome of one `geminiModel.generateContent` call made by
`refineBatchWithGemini`, after the controller's own post-processing of the
response text.  `failure` covers a thrown upstream error, a response with no
JSON array to extract, and unparseable JSON (all of which land in the same
`catch`); `entries` is the parsed array of `{index, refined}` records, with
`index` an arbitrary JS number (modelled as `Int`, so ill-formed indices
simply never match a segment position). -/
inductive GeminiBatchResult where
  | failure
  | entries (es : List (Int × String))

/-- The generative upstream for refinement: the response as a function of the
batch's segment texts (the only request-varying part of the prompt built by
`refineBatchWithGemini`). -/
def RefineOracle := List String → GeminiBatchResult

/-- `batchSegments.map((segment, index) => ...)` — JavaScript `map` with the
index argument. -/
def mapIdxFrom (f : Nat → Seg → Seg) : Nat → List Seg → List Seg
  | _, [] => []
  | i, s :: rest => f i s :: mapIdxFrom f (i + 1) rest

/-- `refineBatchWithGemini(batchSegments)` from
`src/services/transcriptService.js` (identical in the alternative service):
on a usable JSON response, each segment's `text` is replaced by the entry
whose `index` equals the segment's 0-based position (`find(rs => rs.index ===
index)`), keeping its own text when no entry matches, and `original` is set to
the pre-refinement text; the `catch` path returns the segments with only
`original` added.  Note neither path sets `refinementFailed`. -/
def refineBatchWithGemini (oracle : RefineOracle) (batch : List Seg) : List Seg :=
  match oracle (batch.map (·.text)) with
  | .failure => batch.map (fun s => { s with original := some s.text })
  | .entries es =>
      mapIdxFrom (fun i s =>
        match es.find? (fun e => e.1 == (i : Int)) with
        | some e => { s with text := e.2, original := some s.text }
        | none => { s with text := s.text, original := some s.text }) 0 batch

/-- The batch loop of `refineTranscript`: `for (let i = 0; i <
transcript.length; i += batchSize)` with `batchSize = 15`, processing
`transcript.slice(i, i + batchSize)` per iteration and concatenating the
results. -/
def refineChunks (oracle : RefineOracle) (t : List Seg) : List Seg :=
  if _h : t = [] then []
  else refineBatchWithGemini oracle (t.take 15) ++ refineChunks oracle (t.drop 15)
termination_by t.length
decreasing_by
  simp only [List.length_drop]
  exact Nat.sub_lt (List.length_pos.mpr _h) (by decide)

/-- The texts of the batch that contains global segment position `i` in the
loop of `refineTranscript`: iteration `i / 15` processes
`transcript.slice(15 * (i / 15), 15 * (i / 15) + 15)`, and position `i` sits
at the 0-based in-batch index `i % 15` — the index `refineBatchWithGemini`
looks up in the parsed response. -/
def batchTexts (t : List Seg) (i : Nat) : List String :=
  ((t.drop (15 * (i / 15))).take 15).map (·.text)

/-- `refineTranscript(transcript)` from `src/services/transcriptService.js`.
`geminiReady` models whether `initializeGeminiAPI()` succeeds (it throws when
`GEMINI_API_KEY` is absent); that throw is the only possible exception inside
the `try`, so the `catch` path — returning the input with `original` and
`refinementFailed: true` on every segment — fires exactly when
`geminiReady = false`. -/
def refineTranscript (geminiReady : Bool) (oracle : RefineOracle) (t : List Seg) :
    List Seg :=
  if t.isEmpty then []
  else if !geminiReady then
    t.map (fun s => { s with original := some s.text, refinementFailed := true })
  else refineChunks oracle t

/-- The `transcript.length === 1 && transcript[0].isUnavailableMessage` guard
of the alternative service's `refineTranscript`. -/
def isPlaceholderTranscript : List Seg → Bool
  | [s] => s.isUnavailableMessage
  | _ => false

/-- `refineTranscript(transcript)` from
`src/services/alternativeTranscriptService.js`: identical to the original
service's version except that a single-segment transcript flagged
`isUnavailableMessage` is returned unchanged before any Gemini work. -/
def alt_refineTranscript (geminiReady : Bool) (oracle : RefineOracle) (t : List Seg) :
    List Seg :=
  if t.isEmpty then []
  else if isPlaceholderTranscript t then t
  else if !geminiReady then
    t.map (fun s => { s with original := some s.text, refinementFailed := true })
  else refineChunks oracle t

/-! ## Frame lemmas for refinement -/

/-- Correspondence between an input segment and its refined counterpart that
holds on every path of `refineBatchWithGemini` and of the `catch` of
`refineTranscript`: the timing fields and the placeholder marker came from the
input via object spread, and `original` is the input's text.  (`text` and
`refinementFailed` are the fields refinement is allowed to change.) -/
def RefFrame (s r : Seg) : Prop :=
  r.start = s.start ∧ r.duration = s.duration ∧
  r.isUnavailableMessage = s.isUnavailableMessage ∧
  r.original = some s.text

/-- What a segment keeps when its batch's generative response was unusable:
its text, its `refinementFailed` flag (i.e. the flag is not newly set), plus
the recorded `original`. -/
def KeepFrame (s r : Seg) : Prop :=
  r.text = s.text ∧ r.original = some s.text ∧
  r.refinementFailed = s.refinementFailed

/-! ## Composition stage (`src/services/blogGeneratorService.js`) -/

/-- JavaScript's `\s` character class (ECMAScript WhiteSpace ∪
LineTerminator), as used by `trim()` and `split(/\s+/)`. -/
def isJsWs (c : Char) : Bool :=
  c = ' ' || c = '\t' || c = '\n' || c = '\r' ||
  c = '\u000B' || c = '\u000C' || c = '\u00A0' || c = '\u1680' ||
  (('\u2000' ≤ c) && (c ≤ '\u200A')) ||
  c = '\u2028' || c = '\u2029' || c = '\u202F' || c = '\u205F' ||
  c = '\u3000' || c = '\uFEFF'

/-- The characters the JavaScript regex `.` does *not* match without the `s`
flag (ECMAScript LineTerminator). -/
def isLineTerm (c : Char) : Bool :=
  c = '\n' || c = '\r' || c = '\u2028' || c = '\u2029'

/-- `String.prototype.trim()` on a character list. -/
def jsTrim (l : List Char) : List Char :=
  ((l.dropWhile isJsWs).reverse.dropWhile isJsWs).reverse

mutual
/-- `String.prototype.split(/\s+/)`: accumulate the current field (`acc`,
reversed) until a whitespace separator run starts. -/
def jsSplitWsGo (acc : List Char) : List Char → List (List Char)
  | [] => [acc.reverse]
  | c :: rest =>
      if isJsWs c then acc.reverse :: jsSplitWsSkip rest
      else jsSplitWsGo (c :: acc) rest

/-- Inside a `/\s+/` separator run (one whitespace already consumed): skip
the rest of the run; a run reaching the end of the string leaves a final
empty field, as `split` does. -/
def jsSplitWsSkip : List Char → List (List Char)
  | [] => [[]]
  | c :: rest =>
      if isJsWs c then jsSplitWsSkip rest
      else jsSplitWsGo [c] rest
end

/-- `content.split(/\s+/)` — the fields, including the empty boundary fields
`split` produces when the string starts or ends with whitespace. -/
def jsSplitWs (l : List Char) : List (List Char) := jsSplitWsGo [] l

/-- Modelled from the spec: the number of whitespace-separated tokens of a
string, i.e. of maximal runs of non-whitespace characters (`inTok` records
whether the previous character was inside a token).  This is the spec's
reading of "word count", to compare with the code's `split(/\s+/).length`. -/
def tokGo (inTok : Bool) : List Char → Nat
  | [] => 0
  | c :: rest =>
      if isJsWs c then tokGo false rest
      else (if inTok then 0 else 1) + tokGo true rest

/-- Modelled from the spec: number of whitespace-separated tokens. -/
def specTokenCount (l : List Char) : Nat := tokGo false l

/-- `blogContent.split('\n')[0]` — everything before the first newline. -/
def jsFirstLine (l : List Char) : List Char := l.takeWhile (· ≠ '\n')

/-- `title.startsWith('#') ? title.replace(/^#+\s*/, '') : title` — strip the
leading run of `#` markers and the whitespace run following it. -/
def stripHeading (l : List Char) : List Char :=
  match l with
  | '#' :: _ => (l.dropWhile (· = '#')).dropWhile isJsWs
  | _ => l

/-- A character the regex class `["']` matches. -/
def isQuote (c : Char) : Bool := c = '"' || c = Char.ofNat 39

/-- `title.replace(/^["'](.*)["']$/, '$1')`: the pattern matches exactly when
the string has at least two characters, begins and ends with a quote
character, and the part in between contains no line terminator (`.` does not
match those); then both quote characters are removed. -/
def stripQuotes (l : List Char) : List Char :=
  let mid := (l.drop 1).dropLast
  if 2 ≤ l.length ∧ isQuote (l.headD ' ') ∧ isQuote (l.getLastD ' ') ∧
      mid.all (fun c => !isLineTerm c) then
    mid
  else l

/-- The fallback title `` `Blog Post from YouTube Video (${videoId})` ``. -/
def defaultTitle (videoId : String) : String :=
  "Blog Post from YouTube Video (" ++ videoId ++ ")"

/-- The blog post object assembled by `generateBlogFromTranscript`.  The
`generatedAt` wall-clock timestamp is omitted: it is `new
Date().toISOString()`, untied to any input. -/
structure Article where
  title : String
  content : String
  videoId : String
  wordCount : Nat
  readingTime : String
  videoTitle : Option String
deriving DecidableEq, Repr

/-- The post-processing of a successful generation in
`generateBlogFromTranscript` (lines 118–147 of
`src/services/blogGeneratorService.js`): title from the first line with
heading markers and surrounding quotes stripped and the
`!title || title.trim().length < 3` fallback, `wordCount =
blogContent.split(/\s+/).length`, `readingTime = Math.ceil(wordCount / 200)`
rendered as `` `${n} min read` ``, and `videoTitle: videoTitle || null`. -/
def postProcessBlog (content videoId videoTitle : String) : Article :=
  let cl := content.toList
  let stripped := stripQuotes (stripHeading (jsFirstLine cl))
  let title :=
    if stripped = [] ∨ (jsTrim stripped).length < 3 then
      (if videoTitle = "" then defaultTitle videoId else videoTitle)
    else String.mk stripped
  let wc := (jsSplitWs cl).length
  { title := title
    content := content
    videoId := videoId
    wordCount := wc
    readingTime := toString ((wc + 199) / 200) ++ " min read"
    videoTitle := if videoTitle = "" then none else some videoTitle }

/-- Modelled from the spec: the title of a successful composition — "first
line becomes the title after stripping leading markdown heading markers and
surrounding quote characters; if the resulting title is empty or below a
minimum length, substitutes the supplied video title or a generated
default". -/
def specTitle (content videoId videoTitle : String) : String :=
  let stripped := stripQuotes (stripHeading (jsFirstLine content.toList))
  if stripped = [] ∨ (jsTrim stripped).length < 3 then
    (if videoTitle = "" then defaultTitle videoId else videoTitle)
  else String.mk stripped

/-- Environment of the composition stage: whether `initializeGeminiAPI`
succeeds (`GEMINI_API_KEY` present), and the outcome of the
`geminiModel.generateContent` race against the 30 s timeout on each attempt
(`.error` covers both an upstream rejection and the timeout). -/
structure BlogEnv where
  keyPresent : Bool
  gen : Nat → Except String String

/-- The failures `generateBlogFromTranscript` can throw, identified by their
message: `'Gemini API key is required'`, `'Invalid or empty transcript
provided'`, `'Transcript text is too short to generate a meaningful blog'`,
and `` `Failed to generate blog after ${maxAttempts} attempts: ...` ``. -/
inductive BlogFailure where
  | apiKeyMissing
  | invalidTranscript
  | tooShort
  | generationFailed
deriving DecidableEq, Repr

/-- One iteration of the retry loop: a usable result is a generation that
succeeded and whose content is neither empty nor shorter than 100 characters
after trimming (`!blogContent || blogContent.trim().length < 100` throws,
which the loop catches and retries). -/
def blogAttempt (env : BlogEnv) (k : Nat) : Option String :=
  match env.gen k with
  | .ok c => if 100 ≤ (jsTrim c.toList).length then some c else none
  | .error _ => none

/-- `generateBlogFromTranscript(transcript, videoId, videoTitle)` from
`src/services/blogGeneratorService.js`: initialize the client (throws without
an API key), reject an empty transcript, reject when the space-joined segment
texts are under 50 characters after trimming, then up to `maxAttempts = 2`
generation attempts, post-processing the first usable response. -/
def generateBlogFromTranscript (env : BlogEnv) (transcript : List Seg)
    (videoId videoTitle : String) : Except BlogFailure Article :=
  if !env.keyPresent then .error .apiKeyMissing
  else if transcript.isEmpty then .error .invalidTranscript
  else
    let fullText := String.intercalate " " (transcript.map (·.text))
    if (jsTrim fullText.toList).length < 50 then .error .tooShort
    else
      match blogAttempt env 1 with
      | some c => .ok (postProcessBlog c videoId videoTitle)
      | none =>
          match blogAttempt env 2 with
          | some c => .ok (postProcessBlog c videoId videoTitle)
          | none => .error .generationFailed

/-- A content string that a successful composition can return (its trimmed
length is 100) but that begins with whitespace: the counterexample input for
the word-count clause of C9. -/
def boundaryContent : String := String.mk ('\n' :: List.replicate 100 'a')

/-! ## Acquisition orchestration (`src/controllers/combinedController.js`) -/

/-- Environment of the alternative service's `generateBasicTranscript`:
whether `initializeGeminiAPI()` succeeds (`GEMINI_API_KEY` present — the call
sits *outside* the `try`, so its throw escapes), and the outcome of the
`generateContent` call for the placeholder prompt.  The video-title lookup
only varies the prompt text, so it is subsumed by `placeholderGen`. -/
structure GeminiEnv where
  keyPresent : Bool
  placeholderGen : Except String String

/-- The static fallback sentence of `generateBasicTranscript`'s `catch`,
deterministic in the video id. -/
def staticUnavailableText (videoId : String) : String :=
  "I\x27m sorry, the transcript for \"" ++ videoId ++
    "\" is unavailable. The video likely doesn\x27t have captions enabled or they\x27re not accessible. Please try a different video with captions enabled."

/-- `generateBasicTranscript(videoId)` from
`src/services/alternativeTranscriptService.js`: throws when the Gemini client
cannot initialize (no API key); otherwise always returns a single-segment
transcript `{text, start: 0, duration: 10, isUnavailableMessage: true}`,
falling back to a static sentence when the generation itself fails. -/
def generateBasicTranscript (env : GeminiEnv) (videoId : String) :
    Except String (List Seg) :=
  if !env.keyPresent then .error "Gemini API key is required"
  else
    .ok [{ text :=
             match env.placeholderGen with
             | .ok t => t
             | .error _ => staticUnavailableText videoId
           start := 0
           duration := 10
           isUnavailableMessage := true }]

/-- The transcript-related fields of the combined controller's response. -/
structure AcqResult where
  raw : List Seg
  transcriptUnavailable : Bool
  usedAlternativeService : Bool
deriving DecidableEq, Repr

/-- Outcome of the acquisition phase of `processYouTubeUrl` (lines 87–158):
`done` continues the pipeline, `notFound` is the 404 `'Transcript
unavailable'` response, and `raised` is an exception escaping to the
controller's outer `catch` (the 500 `'Processing failed'` response). -/
inductive AcqStep where
  | done (r : AcqResult)
  | notFound (message : String) (videoId : String)
  | raised (msg : String)
deriving DecidableEq, Repr

/-- The acquisition phase of `processYouTubeUrl`: try the primary service
(`preferAlternativeService` selects which), then the secondary; if both fail,
synthesize a placeholder via `generateBasicTranscript` when `fallbackMessage`
is set (the alternative service is always the one providing it, because
`alternativeService.generateBasicTranscript` exists), else answer 404 quoting
the *primary* error.  `origRes`/`altRes` are the outcomes the two services'
`fetchTranscript` would produce, and `usedAlternativeService` is set only on
a successful fetch, exactly as in the JavaScript. -/
def acquireTranscript (env : GeminiEnv) (origRes altRes : Except String (List Seg))
    (fallbackMessage preferAlternativeService : Bool) (videoId : String) : AcqStep :=
  let primary := if preferAlternativeService then altRes else origRes
  let secondary := if preferAlternativeService then origRes else altRes
  match primary with
  | .ok t => .done ⟨t, false, preferAlternativeService⟩
  | .error primaryError =>
      match secondary with
      | .ok t => .done ⟨t, false, !preferAlternativeService⟩
      | .error _secondaryError =>
          if fallbackMessage then
            match generateBasicTranscript env videoId with
            | .ok t => .done ⟨t, true, false⟩
            | .error m => .raised m
          else
            .notFound ("Unable to retrieve transcript: " ++ primaryError) videoId

/-! ## Result-cache key (`combinedController.js` line 70) -/

/-- JavaScript's `${b}` rendering of a boolean. -/
def boolStr (b : Bool) : String := if b then "true" else "false"

/-- `` `combined-${videoId}-${language}-${skipRefinement}-${generateBlog}-${fallbackMessage}-${preferAlternativeService}` `` -/
def cacheKey (videoId language : String)
    (skipRefinement generateBlog fallbackMessage preferAlternativeService : Bool) :
    String :=
  "combined-" ++ videoId ++ "-" ++ language ++ "-" ++ boolStr skipRefinement ++
    "-" ++ boolStr generateBlog ++ "-" ++ boolStr fallbackMessage ++ "-" ++
    boolStr preferAlternativeService

/-- The flag suffix of the cache key, as characters. -/
def flagTail (b1 b2 b3 b4 : Bool) : List Char :=
  '-' :: (boolStr b1).data ++ '-' :: (boolStr b2).data ++ '-' :: (boolStr b3).data ++
    '-' :: (boolStr b4).data

/-! ## Identifier extraction (`getVideoId`, `src/services/transcriptService.js`)

`getVideoId` matches the URL against
`/^.*((youtu.be\/)|(v\/)|(\/u\/\w\/)|(embed\/)|(watch\?))\??v?=?([^#&?]*).*/`
and, failing that, `/^.*((youtube.com\/shorts\/)([^#&?]*))/`.  The embedding
reproduces the regex engine's behaviour on these patterns exactly:

* the leading greedy `^.*` (which cannot cross a newline) makes the engine
  pick the *rightmost* position at which the alternation matches; everything
  after the alternation (`\??v?=?`, the capture `[^#&?]*` and the trailing
  `.*`) is optional or can be empty, so it never causes backtracking, and the
  trailing `.*` need not reach the end of the input;
* in `youtu.be\/` and `youtube.com\/shorts\/` the unescaped `.` matches any
  character except a line terminator (modelled here as any non-`'\n'`
  character — the only line terminator relevant to the scan, since `^.*`
  already stops at the first `'\n'`);
* `\w` is `[A-Za-z0-9_]`.
-/

/-- The regex `\w` class. -/
def isWordChar (c : Char) : Bool := c.isAlphanum || c = '_'

/-- The alphabet of YouTube video identifiers (`[A-Za-z0-9_-]`); universally
quantified theorems about identifiers assume their characters lie in it. -/
def isIdChar (c : Char) : Bool := c.isAlphanum || c = '_' || c = '-'

/-- `youtu.be\/` after its first character `y` (the unescaped `.` matches any
non-line-terminator). -/
def altYoutuBe : List Char → Option Nat
  | 'o' :: 'u' :: 't' :: 'u' :: c2 :: 'b' :: 'e' :: '/' :: _ =>
      if c2 = '\n' then none else some 9
  | _ => none

/-- `v\/` after its first character `v`. -/
def altV : List Char → Option Nat
  | '/' :: _ => some 2
  | _ => none

/-- `\/u\/\w\/` after its first character `/`. -/
def altU : List Char → Option Nat
  | 'u' :: '/' :: c2 :: '/' :: _ => if isWordChar c2 then some 5 else none
  | _ => none

/-- `embed\/` after its first character `e`. -/
def altEmbed : List Char → Option Nat
  | 'm' :: 'b' :: 'e' :: 'd' :: '/' :: _ => some 6
  | _ => none

/-- `watch\?` after its first character `w`. -/
def altWatch : List Char → Option Nat
  | 'a' :: 't' :: 'c' :: 'h' :: '?' :: _ => some 6
  | _ => none

/-- Does one of the five alternations of the standard pattern match at the
head of `l`?  Returns the length it consumes.  Alternatives are tried in the
regex's order; their first characters (`y`, `v`, `/`, `e`, `w`) are pairwise
distinct, so at most one can match at a given position. -/
def altMatch (l : List Char) : Option Nat :=
  match l with
  | [] => none
  | c :: rest =>
      if c = 'y' then altYoutuBe rest
      else if c = 'v' then altV rest
      else if c = '/' then altU rest
      else if c = 'e' then altEmbed rest
      else if c = 'w' then altWatch rest
      else none

/-- The capture group `([^#&?]*)`, greedy. -/
def groupNoStop (l : List Char) : List Char :=
  l.takeWhile (fun c => !(c = '#' || c = '&' || c = '?'))

/-- One optional greedy literal (`x?` in the regex). -/
def dropLit (a : Char) (l : List Char) : List Char :=
  match l with
  | c :: r => if c = a then r else l
  | [] => l

/-- `\??v?=?` after the alternation. -/
def consumeOpt (l : List Char) : List Char :=
  dropLit '=' (dropLit 'v' (dropLit '?' (l)))

/-- The standard pattern's match: the engine's backtracking over the greedy
`^.*` is equivalent to preferring the *latest* position at which the
alternation matches (`stdScan rest` first), stopping at a newline (which
`.*` cannot cross), and taking group 7 from what follows the alternation. -/
def stdScan : List Char → Option (List Char)
  | [] => none
  | c :: rest =>
      if c = '\n' then none
      else
        match stdScan rest with
        | some g => some g
        | none =>
            match altMatch (c :: rest) with
            | some k => some (groupNoStop (consumeOpt (List.drop k (c :: rest))))
            | none => none

/-- The `shorts/` literal of the shorts pattern. -/
def shortsPatTail2 : List Char → Bool
  | 's' :: 'h' :: 'o' :: 'r' :: 't' :: 's' :: '/' :: _ => true
  | _ => false

/-- The `com/shorts/` literal tail of the shorts pattern. -/
def shortsPatTail : List Char → Bool
  | 'c' :: 'o' :: 'm' :: '/' :: rest => shortsPatTail2 rest
  | _ => false

/-- Does `youtube.com\/shorts\/` (19 characters, `.` a wildcard) match at the
head of `l`? -/
def shortsPat (l : List Char) : Bool :=
  match l with
  | 'y' :: 'o' :: 'u' :: 't' :: 'u' :: 'b' :: 'e' :: c :: rest =>
      if c = '\n' then false else shortsPatTail rest
  | _ => false

/-- The shorts pattern's match, with the same last-position-wins reading of
the greedy `^.*`; group 3 is `([^#&?]*)` after the literal. -/
def shortsScan : List Char → Option (List Char)
  | [] => none
  | c :: rest =>
      if c = '\n' then none
      else
        match shortsScan rest with
        | some g => some g
        | none =>
            if shortsPat (c :: rest) then
              some (groupNoStop (List.drop 19 (c :: rest)))
            else none

/-- `getVideoId(url)` from `src/services/transcriptService.js` (identical in
the alternative service): `null` on an empty url; the standard pattern's
group 7 if it matched, is non-empty (`matchStandard[7]` is truthy) and has
exactly 11 characters; otherwise the shorts pattern's group 3 if it matched
and is non-empty; otherwise `null`.  The surrounding `try/catch` never fires
(nothing in the body throws), so every outcome is a value, never an
exception. -/
def getVideoId (url : String) : Option String :=
  if url.data = [] then none
  else
    match stdScan url.data with
    | some g =>
        if g.length = 11 then some (String.mk g)
        else
          match shortsScan url.data with
          | some g3 => if g3 = [] then none else some (String.mk g3)
          | none => none
    | none =>
        match shortsScan url.data with
        | some g3 => if g3 = [] then none else some (String.mk g3)
        | none => none

theorem forall₂_map_self {P : Seg → Seg → Prop} (f : Seg → Seg)
    (hf : ∀ s, P s (f s)) : ∀ l : List Seg, List.Forall₂ P l (l.map f)
  | [] => List.Forall₂.nil
  | s :: rest => List.Forall₂.cons (hf s) (forall₂_map_self f hf rest)

theorem forall₂_mapIdxFrom {P : Seg → Seg → Prop} (f : Nat → Seg → Seg)
    (hf : ∀ i s, P s (f i s)) : ∀ (i : Nat) (l : List Seg),
    List.Forall₂ P l (mapIdxFrom f i l)
  | _, [] => List.Forall₂.nil
  | i, s :: rest => List.Forall₂.cons (hf i s) (forall₂_mapIdxFrom f hf (i + 1) rest)

theorem refineBatch_frame (oracle : RefineOracle) (batch : List Seg) :
    List.Forall₂ RefFrame batch (refineBatchWithGemini oracle batch) := by
  unfold refineBatchWithGemini
  cases oracle (batch.map (·.text)) with
  | failure =>
      exact forall₂_map_self _ (fun s => ⟨rfl, rfl, rfl, rfl⟩) batch
  | entries es =>
      refine forall₂_mapIdxFrom _ (fun i s => ?_) 0 batch
      cases es.find? (fun e => e.1 == (i : Int)) with
      | none => exact ⟨rfl, rfl, rfl, rfl⟩
      | some e => exact ⟨rfl, rfl, rfl, rfl⟩

theorem refineChunks_frame (oracle : RefineOracle) (t : List Seg) :
    List.Forall₂ RefFrame t (refineChunks oracle t) := by
  induction t using refineChunks.induct oracle with
  | case1 => simp [refineChunks]
  | case2 t h ih =>
      rw [refineChunks, dif_neg h]
      have h1 := refineBatch_frame oracle (t.take 15)
      have h2 := List.rel_append h1 ih
      simpa [List.take_append_drop] using h2

theorem refineTranscript_frame (geminiReady : Bool) (oracle : RefineOracle)
    (t : List Seg) (hne : t ≠ []) :
    List.Forall₂ RefFrame t (refineTranscript geminiReady oracle t) := by
  unfold refineTranscript
  rw [if_neg (by simpa [List.isEmpty_iff] using hne)]
  cases geminiReady with
  | false =>
      simpa using forall₂_map_self _ (fun s => ⟨rfl, rfl, rfl, rfl⟩) t
  | true => simpa using refineChunks_frame oracle t

theorem forall₂_refFrame_map_start {l r : List Seg} (h : List.Forall₂ RefFrame l r) :
    r.map (·.start) = l.map (·.start) := by
  induction h with
  | nil => rfl
  | cons hab _ ih => simp [ih, hab.1]

theorem forall₂_refFrame_map_original {l r : List Seg} (h : List.Forall₂ RefFrame l r) :
    r.map (·.original) = l.map (fun s => some s.text) := by
  induction h with
  | nil => rfl
  | cons hab _ ih => simp [ih, hab.2.2.2]

/-! ## C3 — refinement preserves segment count and order -/

/-- C3: for every non-empty, non-placeholder transcript `t` and every
behaviour of the generative upstream (success, malformed output, or failure on
any batch; batches are the fixed 15-segment slices of `refineChunks`),
`refineTranscript` returns exactly as many segments as it was given, in the
same order — witnessed by each output position carrying the timing and
pre-refinement text of the input segment at the same position. -/
theorem refineTranscript_preserves_length_and_order
    (geminiReady : Bool) (oracle : RefineOracle) (t : List Seg)
    (hne : t ≠ []) (_hnp : isPlaceholderTranscript t = false) :
    (refineTranscript geminiReady oracle t).length = t.length ∧
    (refineTranscript geminiReady oracle t).map (·.start) = t.map (·.start) ∧
    (refineTranscript geminiReady oracle t).map (·.original) =
      t.map (fun s => some s.text) := by
  have h := refineTranscript_frame geminiReady oracle t hne
  exact ⟨h.length_eq.symm, forall₂_refFrame_map_start h, forall₂_refFrame_map_original h⟩

/-- Witness for C3 at a concrete two-segment transcript and an upstream that
fails on every batch. -/
theorem refineTranscript_preserves_length_and_order_witness :
    (refineTranscript true (fun _ => .failure)
        [⟨"a", 0, 1, false, none, false⟩, ⟨"b", 1, 2, false, none, false⟩]).length = 2 := by
  have h := refineTranscript_preserves_length_and_order true (fun _ => .failure)
    [⟨"a", 0, 1, false, none, false⟩, ⟨"b", 1, 2, false, none, false⟩]
    (by decide) (by decide)
  simpa using h.1

/-! ## C10 — refinement frame conditions -/

/-- C10: for every non-empty, non-placeholder transcript and every behaviour
of the generative upstream (and of the client initialization), each segment
returned by `refineTranscript` preserves the `start` and `duration` (and
`isUnavailableMessage`) fields of the input segment at the same position and
carries `original` equal to that segment's pre-refinement text; `Seg` has no
further fields, so only `text`, `original` and `refinementFailed` can differ
from the input. -/
theorem refineTranscript_frame_conditions (geminiReady : Bool)
    (oracle : RefineOracle) (t : List Seg) (hne : t ≠ [])
    (_hnp : isPlaceholderTranscript t = false) :
    List.Forall₂ RefFrame t (refineTranscript geminiReady oracle t) :=
  refineTranscript_frame geminiReady oracle t hne

/-- Witness for C10 at a one-segment transcript with a batch-failing
upstream. -/
theorem refineTranscript_frame_conditions_witness :
    List.Forall₂ RefFrame [⟨"a", 3, 4, false, none, false⟩]
      (refineTranscript true (fun _ => .failure) [⟨"a", 3, 4, false, none, false⟩]) :=
  refineTranscript_frame_conditions true (fun _ => .failure)
    [⟨"a", 3, 4, false, none, false⟩] (by decide) (by decide)

/-! ## C4 — refinement is the identity on a placeholder transcript -/

/-- C4: the alternative service's `refineTranscript` returns a placeholder
transcript (a single segment flagged `isUnavailableMessage`) unchanged, for
every behaviour of the generative upstream and of the client initialization —
in particular the result does not depend on the upstream at all, so the
placeholder is never sent to it. -/
theorem alt_refineTranscript_placeholder_id (geminiReady : Bool)
    (oracle : RefineOracle) (s : Seg) (h : s.isUnavailableMessage = true) :
    alt_refineTranscript geminiReady oracle [s] = [s] := by
  simp [alt_refineTranscript, isPlaceholderTranscript, h]

/-- Witness for C4 at a concrete placeholder segment. -/
theorem alt_refineTranscript_placeholder_id_witness :
    alt_refineTranscript true (fun _ => .failure)
      [⟨"Transcript unavailable.", 0, 10, true, none, false⟩] =
      [⟨"Transcript unavailable.", 0, 10, true, none, false⟩] :=
  alt_refineTranscript_placeholder_id true (fun _ => .failure)
    ⟨"Transcript unavailable.", 0, 10, true, none, false⟩ rfl

/-! ## C5 — failed segments keep their text but are *not* flagged -/

/-- C5 counterexample: a one-segment transcript whose (single) batch fails
entirely.  The claim says the returned segment is flagged
`refinementFailed = true`; the code's `refineBatchWithGemini` catch path only
adds `original`, so the flag stays `false`. -/
theorem refineBatch_failure_not_flagged_cex :
    (refineTranscript true (fun _ => .failure)
        [⟨"hello world", 0, 5, false, none, false⟩]).map (·.refinementFailed) =
      [false] := by
  simp [refineTranscript, refineChunks, refineBatchWithGemini]

theorem mapIdxFrom_getElem? (f : Nat → Seg → Seg) :
    ∀ (k : Nat) (l : List Seg) (j : Nat),
    (mapIdxFrom f k l)[j]? = l[j]?.map (f (k + j)) := by
  intro k l
  induction l generalizing k with
  | nil => intro j; simp [mapIdxFrom]
  | cons s rest ih =>
      intro j
      cases j with
      | zero => simp [mapIdxFrom]
      | succ j2 =>
          have e : k + (j2 + 1) = (k + 1) + j2 := by omega
          simp [mapIdxFrom, ih (k + 1) j2, e]

/-- A batch position whose response is unusable — the whole request failed,
or the parsed array (of any size) has no entry for that index — yields the
input segment with only `original` added. -/
theorem refineBatch_getElem?_unrefined (oracle : RefineOracle) (b : List Seg)
    (j : Nat)
    (h : oracle (b.map (·.text)) = .failure ∨
      ∃ es, oracle (b.map (·.text)) = .entries es ∧
        es.find? (fun e => e.1 == (j : Int)) = none) :
    (refineBatchWithGemini oracle b)[j]? =
      b[j]?.map (fun s => { s with original := some s.text }) := by
  unfold refineBatchWithGemini
  rcases h with h | ⟨es, h, hf⟩ <;> rw [h]
  · rw [List.getElem?_map]
  · rw [mapIdxFrom_getElem?]
    simp only [Nat.zero_add, hf]

theorem refineChunks_getElem?_unrefined (oracle : RefineOracle) :
    ∀ (t : List Seg) (i : Nat), i < t.length →
    (oracle (batchTexts t i) = .failure ∨
      ∃ es, oracle (batchTexts t i) = .entries es ∧
        es.find? (fun e => e.1 == ((i % 15 : Nat) : Int)) = none) →
    (refineChunks oracle t)[i]? =
      t[i]?.map (fun s => { s with original := some s.text }) := by
  intro t
  induction t using refineChunks.induct oracle with
  | case1 => intro i hi; simp at hi
  | case2 t h ih =>
      intro i hi hor
      rw [refineChunks, dif_neg h]
      have hbl : (refineBatchWithGemini oracle (t.take 15)).length = (t.take 15).length :=
        (refineBatch_frame oracle (t.take 15)).length_eq.symm
      by_cases hi15 : i < 15
      · have hti : i < (refineBatchWithGemini oracle (t.take 15)).length := by
          rw [hbl, List.length_take]
          omega
        have hor2 : oracle ((t.take 15).map (·.text)) = .failure ∨
            ∃ es, oracle ((t.take 15).map (·.text)) = .entries es ∧
              es.find? (fun e => e.1 == (i : Int)) = none := by
          have e1 : batchTexts t i = (t.take 15).map (·.text) := by
            unfold batchTexts
            have e0 : 15 * (i / 15) = 0 := by omega
            rw [e0, List.drop_zero]
          have e2 : i % 15 = i := by omega
          rw [e1, e2] at hor
          exact hor
        rw [List.getElem?_append_left hti,
          refineBatch_getElem?_unrefined oracle (t.take 15) i hor2,
          List.getElem?_take_of_lt hi15]
      · have hlen15 : (refineBatchWithGemini oracle (t.take 15)).length = 15 := by
          rw [hbl, List.length_take]
          omega
        have hge : (refineBatchWithGemini oracle (t.take 15)).length ≤ i := by omega
        have hor2 : oracle (batchTexts (t.drop 15) (i - 15)) = .failure ∨
            ∃ es, oracle (batchTexts (t.drop 15) (i - 15)) = .entries es ∧
              es.find? (fun e => e.1 == (((i - 15) % 15 : Nat) : Int)) = none := by
          have e1 : batchTexts (t.drop 15) (i - 15) = batchTexts t i := by
            unfold batchTexts
            rw [List.drop_drop]
            have e0 : 15 + 15 * ((i - 15) / 15) = 15 * (i / 15) := by omega
            rw [e0]
          have e2 : (i - 15) % 15 = i % 15 := by omega
          rw [e1, e2]
          exact hor
        have ihx := ih (i - 15) (by rw [List.length_drop]; omega) hor2
        rw [List.getElem?_append_right hge, hlen15, ihx, List.getElem?_drop]
        have e3 : 15 + (i - 15) = i := by omega
        rw [e3]

/-- C5 (amended): for every behaviour of the generative service, a segment
whose batch request failed entirely (upstream error, unextractable or
unparseable JSON) *or* whose in-batch index is absent from the parsed array —
including a nonempty, partially-refining array — comes back as the input
segment with only `original` set to its pre-refinement text: its `text` is
unchanged and its `refinementFailed` flag is NOT set (it keeps the input's
value, `false` for raw provider segments).  `refinementFailed` is set only by
`refineTranscript`'s own catch path (client-initialization failure). -/
theorem refine_unrefined_segment_keeps (oracle : RefineOracle) (t : List Seg)
    (i : Nat) (hi : i < t.length)
    (h : oracle (batchTexts t i) = .failure ∨
      ∃ es, oracle (batchTexts t i) = .entries es ∧
        es.find? (fun e => e.1 == ((i % 15 : Nat) : Int)) = none) :
    (refineTranscript true oracle t)[i]? =
      t[i]?.map (fun s => { s with original := some s.text }) := by
  have h1 : t.isEmpty = false := by
    cases t with
    | nil => simp at hi
    | cons a r => rfl
  simp only [refineTranscript, h1, Bool.false_eq_true, Bool.not_true, if_false]
  exact refineChunks_getElem?_unrefined oracle t i hi h

/-- Witness for the amended C5: a two-segment transcript whose single batch
gets a *nonempty* response refining only index 0, so position 1 is the
absent-index case. -/
theorem refine_unrefined_segment_keeps_witness :
    (refineTranscript true (fun _ => .entries [((0 : Int), "Refined.")])
        [⟨"aaa", 0, 1, false, none, false⟩, ⟨"bbb", 1, 2, false, none, false⟩])[1]? =
      ([⟨"aaa", 0, 1, false, none, false⟩, ⟨"bbb", 1, 2, false, none, false⟩] :
          List Seg)[1]?.map (fun s => { s with original := some s.text }) :=
  refine_unrefined_segment_keeps (fun _ => .entries [((0 : Int), "Refined.")])
    [⟨"aaa", 0, 1, false, none, false⟩, ⟨"bbb", 1, 2, false, none, false⟩] 1
    (by decide)
    (Or.inr ⟨[((0 : Int), "Refined.")], rfl, by decide⟩)

/-! ## C6 — too-short transcripts are rejected before composition -/

/-- C6 counterexample: the empty transcript's concatenated text (0
characters) is below the 50-character threshold, yet
`generateBlogFromTranscript` fails with the invalid-transcript error, not the
input-too-short one (the `!transcript || !Array.isArray(transcript) ||
transcript.length === 0` check fires first); no article is produced, but the
error is a different one than the claim states. -/
theorem blog_empty_transcript_error_cex :
    generateBlogFromTranscript ⟨true, fun _ => .error "upstream down"⟩ []
      "dQw4w9WgXcQ" "" = .error .invalidTranscript := rfl

/-- C6 (amended): for every *non-empty* transcript whose space-joined segment
texts trim to fewer than 50 characters, and *provided the generative client
initializes* (`GEMINI_API_KEY` present — its absence is reported before the
length check), composition fails with the input-too-short error and no
article.  The result is the same for every `env.gen`, so no generation call
is made for such input. -/
theorem blog_short_transcript_tooShort (env : BlogEnv) (t : List Seg)
    (videoId videoTitle : String) (hkey : env.keyPresent = true) (hne : t ≠ [])
    (hshort : (jsTrim (String.intercalate " " (t.map (·.text))).toList).length < 50) :
    generateBlogFromTranscript env t videoId videoTitle = .error .tooShort := by
  have hshort' : (jsTrim (String.intercalate " " (t.map (·.text))).data).length < 50 :=
    hshort
  simp [generateBlogFromTranscript, hkey, List.isEmpty_iff, hne, hshort, hshort']

/-- Witness for the amended C6: the spec's own scenario, a 10-character
transcript. -/
theorem blog_short_transcript_tooShort_witness :
    generateBlogFromTranscript ⟨true, fun _ => .error "e"⟩
      [⟨"1234567890", 0, 1, false, none, false⟩] "dQw4w9WgXcQ" "" =
      .error .tooShort :=
  blog_short_transcript_tooShort _ _ _ _ rfl (by decide) (by decide)

/-! ## C9 — post-processing of a successful composition -/

theorem go_skip_len : ∀ (n : Nat) (l : List Char), l.length ≤ n →
    (∀ acc, (∀ c, l.getLast? = some c → isJsWs c = false) →
      (jsSplitWsGo acc l).length = 1 + tokGo true l) ∧
    (l ≠ [] → (∀ c, l.getLast? = some c → isJsWs c = false) →
      (jsSplitWsSkip l).length = tokGo false l) := by
  intro n
  induction n with
  | zero =>
      intro l hl
      have : l = [] := List.length_eq_zero.mp (Nat.le_zero.mp hl)
      subst this
      exact ⟨fun acc _ => by simp [jsSplitWsGo, tokGo], fun hne _ => absurd rfl hne⟩
  | succ n ih =>
      intro l hl
      constructor
      · intro acc hlast
        match l, hl with
        | [], _ => simp [jsSplitWsGo, tokGo]
        | c :: rest, hl =>
            have hlast' : ∀ c', rest.getLast? = some c' → isJsWs c' = false := by
              intro c' h'
              cases rest with
              | nil => simp at h'
              | cons r rs => exact hlast c' (by rwa [List.getLast?_cons_cons])
            have hlen : rest.length ≤ n := by
              simp only [List.length_cons] at hl
              omega
            by_cases hc : isJsWs c = true
            · have hrest_ne : rest ≠ [] := by
                rintro rfl
                have := hlast c (by simp)
                rw [this] at hc
                exact Bool.false_ne_true hc
              have hskip := (ih rest hlen).2 hrest_ne hlast'
              simp [jsSplitWsGo, hc, tokGo, hskip]
              omega
            · have hgo := (ih rest hlen).1 (c :: acc) hlast'
              have hc' : isJsWs c = false := Bool.not_eq_true _ |>.mp hc
              simp [jsSplitWsGo, hc', tokGo, hgo]
      · intro hne hlast
        match l, hne, hl with
        | c :: rest, _, hl =>
            have hlast' : ∀ c', rest.getLast? = some c' → isJsWs c' = false := by
              intro c' h'
              cases rest with
              | nil => simp at h'
              | cons r rs => exact hlast c' (by rwa [List.getLast?_cons_cons])
            have hlen : rest.length ≤ n := by
              simp only [List.length_cons] at hl
              omega
            by_cases hc : isJsWs c = true
            · have hrest_ne : rest ≠ [] := by
                rintro rfl
                have := hlast c (by simp)
                rw [this] at hc
                exact Bool.false_ne_true hc
              have hskip := (ih rest hlen).2 hrest_ne hlast'
              simp [jsSplitWsSkip, hc, tokGo, hskip]
            · have hgo := (ih rest hlen).1 [c] hlast'
              have hc' : isJsWs c = false := Bool.not_eq_true _ |>.mp hc
              simp [jsSplitWsSkip, hc', tokGo, hgo]

/-- The length of `split(/\s+/)` equals the number of whitespace-separated
tokens whenever the string neither begins nor ends with whitespace. -/
theorem jsSplitWs_len_eq_tokens (l : List Char) (hne : l ≠ [])
    (hhead : ∀ c, l.head? = some c → isJsWs c = false)
    (hlast : ∀ c, l.getLast? = some c → isJsWs c = false) :
    (jsSplitWs l).length = specTokenCount l := by
  have h := (go_skip_len l.length l le_rfl).1 [] hlast
  match l, hne with
  | c :: rest, _ =>
      have hc : isJsWs c = false := hhead c rfl
      rw [jsSplitWs, h]
      simp [specTokenCount, tokGo, hc]

/-- C9 (amended): on a successful composition the Article's `title` is
exactly the spec's description (first line, heading markers and surrounding
quotes stripped, video-title/default fallback when empty or under 3
characters after trimming), and `readingTime` is `ceil(wordCount / 200)`
minutes; but `wordCount` is the length of `content.split(/\s+/)`, which
equals the number of whitespace-separated tokens only when the content
neither begins nor ends with whitespace (a leading or trailing whitespace run
contributes an extra empty field). -/
theorem blog_postprocess_properties (content videoId videoTitle : String) :
    (postProcessBlog content videoId videoTitle).title =
      specTitle content videoId videoTitle ∧
    (postProcessBlog content videoId videoTitle).readingTime =
      toString (((postProcessBlog content videoId videoTitle).wordCount + 199) / 200)
        ++ " min read" ∧
    ((content.toList ≠ [] ∧
      (∀ c, content.toList.head? = some c → isJsWs c = false) ∧
      (∀ c, content.toList.getLast? = some c → isJsWs c = false)) →
      (postProcessBlog content videoId videoTitle).wordCount =
        specTokenCount content.toList) := by
  refine ⟨rfl, rfl, fun ⟨h1, h2, h3⟩ => ?_⟩
  simpa [postProcessBlog] using jsSplitWs_len_eq_tokens content.toList h1 h2 h3

/-- Witness for the amended C9 at a concrete generated content. -/
theorem blog_postprocess_properties_witness :
    (postProcessBlog "# My Title\nsome body text" "dQw4w9WgXcQ" "").title =
      specTitle "# My Title\nsome body text" "dQw4w9WgXcQ" "" ∧
    (postProcessBlog "# My Title\nsome body text" "dQw4w9WgXcQ" "").wordCount =
      specTokenCount ("# My Title\nsome body text").toList := by
  have h := blog_postprocess_properties "# My Title\nsome body text" "dQw4w9WgXcQ" ""
  refine ⟨h.1, h.2.2 ⟨by decide, ?_, ?_⟩⟩
  · intro c hc
    cases hc
    decide
  · intro c hc
    cases hc
    decide

set_option maxRecDepth 4000 in
/-- C9 counterexample: a content string of trimmed length 100 (so a
successful composition can return it) that starts with a newline.  It has a
single whitespace-separated token, but `split(/\s+/)` yields a leading empty
field, so the code's `wordCount` is 2. -/
theorem blog_wordCount_not_token_count_cex :
    100 ≤ (jsTrim boundaryContent.toList).length ∧
    (postProcessBlog boundaryContent "dQw4w9WgXcQ" "").wordCount = 2 ∧
    specTokenCount boundaryContent.toList = 1 :=
  ⟨by decide, by decide, by decide⟩


/-! ## C1 — both providers fail with placeholders allowed -/

/-- C1 counterexample: with both providers failing and `fallbackMessage =
true`, if the Gemini client cannot initialize (`GEMINI_API_KEY` absent and
the model not yet initialized) then `generateBasicTranscript` throws —
`initializeGeminiAPI()` is called *outside* its `try` — and the exception
escapes the acquisition logic to the controller's outer catch (a 500
`'Processing failed'` response), so the orchestration does not always
complete with a placeholder. -/
theorem acquire_raises_without_key_cex :
    acquireTranscript ⟨false, .error "generation down"⟩ (.error "orig failed")
      (.error "alt failed") true false "dQw4w9WgXcQ" =
      .raised "Gemini API key is required" := rfl

/-- C1 (amended): when both providers fail, placeholders are allowed, and the
generative client initializes (API key configured), the acquisition phase of
`processYouTubeUrl` raises nothing and completes with a single-segment
placeholder transcript (`isUnavailableMessage = true`),
`transcriptUnavailable = true` and no error, for every pair of provider
errors, every provider ordering, and every identifier. -/
theorem acquire_fallback_always_placeholder (env : GeminiEnv)
    (origErr altErr : String) (prefer : Bool) (videoId : String)
    (hkey : env.keyPresent = true) :
    ∃ s : Seg,
      acquireTranscript env (.error origErr) (.error altErr) true prefer videoId =
        .done ⟨[s], true, false⟩ ∧ s.isUnavailableMessage = true := by
  obtain ⟨key, pg⟩ := env
  cases hkey
  cases pg <;> cases prefer <;> exact ⟨_, rfl, rfl⟩

/-- Witness for the amended C1. -/
theorem acquire_fallback_always_placeholder_witness :
    ∃ s : Seg,
      acquireTranscript ⟨true, .error "generation down"⟩ (.error "orig failed")
        (.error "alt failed") true false "dQw4w9WgXcQ" =
        .done ⟨[s], true, false⟩ ∧ s.isUnavailableMessage = true :=
  acquire_fallback_always_placeholder ⟨true, .error "generation down"⟩
    "orig failed" "alt failed" false "dQw4w9WgXcQ" rfl

/-! ## C7 — placeholders disallowed: the 404 quotes the primary error -/

/-- C7: with `fallbackMessage = false` and both providers failing, the 404
response's message is `` `Unable to retrieve transcript:
${primaryError.message}` `` where the primary error is the error of whichever
provider was tried first (`preferAlternativeService` decides), not the
secondary's — for every pair of provider errors and both orderings. -/
theorem acquire_no_fallback_reports_primary_error (env : GeminiEnv)
    (origErr altErr : String) (prefer : Bool) (videoId : String) :
    acquireTranscript env (.error origErr) (.error altErr) false prefer videoId =
      .notFound ("Unable to retrieve transcript: " ++
        (if prefer then altErr else origErr)) videoId := by
  cases prefer <;> rfl

/-! ## C8 — cache key determinism and (non-)injectivity -/

/-- C8 counterexample: two requests with different (identifier, language)
pairs — `("A", "en-true")` and `("A-en", "true")`, all four flags `true` —
produce the same cache key `combined-A-en-true-true-true-true-true`, because
the dash-joined key cannot tell where an identifier of non-canonical length
(possible via the shorts pattern) ends and the free-form language tag
begins. -/
theorem cacheKey_collision_cex :
    cacheKey "A" "en-true" true true true true =
      cacheKey "A-en" "true" true true true true ∧
    ("A" : String) ≠ "A-en" := by
  exact ⟨rfl, by decide⟩

theorem count_dash_boolStr (b : Bool) : ((boolStr b).data).count '-' = 0 := by
  cases b <;> decide

theorem count_dash_flagTail (b1 b2 b3 b4 : Bool) :
    (flagTail b1 b2 b3 b4).count '-' = 4 := by
  cases b1 <;> cases b2 <;> cases b3 <;> cases b4 <;> decide

theorem flagTail_inj : ∀ a1 a2 a3 a4 b1 b2 b3 b4 : Bool,
    flagTail a1 a2 a3 a4 = flagTail b1 b2 b3 b4 →
    a1 = b1 ∧ a2 = b2 ∧ a3 = b3 ∧ a4 = b4 := by decide

theorem lang_flagTail_inj :
    ∀ (lang lang' : List Char) (a1 a2 a3 a4 b1 b2 b3 b4 : Bool),
    lang ++ flagTail a1 a2 a3 a4 = lang' ++ flagTail b1 b2 b3 b4 →
    lang = lang' ∧ a1 = b1 ∧ a2 = b2 ∧ a3 = b3 ∧ a4 = b4 := by
  intro lang
  induction lang with
  | nil =>
      intro lang' a1 a2 a3 a4 b1 b2 b3 b4 h
      cases lang' with
      | nil => exact ⟨rfl, flagTail_inj _ _ _ _ _ _ _ _ (by simpa using h)⟩
      | cons c' l' =>
          exfalso
          rw [List.nil_append, List.cons_append] at h
          rw [flagTail] at h
          injection h with hc htail
          have hcount := congrArg (fun l => l.count '-') htail
          simp [List.count_append, List.count_cons, count_dash_boolStr,
            count_dash_flagTail] at hcount
  | cons c l ih =>
      intro lang' a1 a2 a3 a4 b1 b2 b3 b4 h
      cases lang' with
      | nil =>
          exfalso
          rw [List.nil_append, List.cons_append] at h
          rw [flagTail] at h
          injection h with hc htail
          have hcount := congrArg (fun l => l.count '-') htail
          simp [List.count_append, List.count_cons, count_dash_boolStr,
            count_dash_flagTail] at hcount
      | cons c' l' =>
          rw [List.cons_append, List.cons_append] at h
          injection h with hc htail
          obtain ⟨hl, hb⟩ := ih l' a1 a2 a3 a4 b1 b2 b3 b4 htail
          exact ⟨by rw [hc, hl], hb⟩

theorem cacheKey_data (i l : String) (b1 b2 b3 b4 : Bool) :
    (cacheKey i l b1 b2 b3 b4).data =
      "combined-".data ++ (i.data ++ ('-' :: (l.data ++ flagTail b1 b2 b3 b4))) := by
  simp [cacheKey, flagTail, String.data_append, List.append_assoc]

/-- C8 (amended): the cache key is a deterministic function of the identifier
and all five output-affecting options (being a pure function of them), and it
is injective *provided the two identifiers have the same length* (e.g. both
canonical 11-character ids): equal keys then force equal identifiers, equal
languages and equal flags.  Identifiers of different lengths — reachable via
the shorts pattern, which returns ids of any length — can collide with the
free-form language field (see the counterexample). -/
theorem cacheKey_injective_same_id_length
    (id id' lang lang' : String) (s g f p s' g' f' p' : Bool)
    (hlen : id.length = id'.length)
    (h : cacheKey id lang s g f p = cacheKey id' lang' s' g' f' p') :
    id = id' ∧ lang = lang' ∧ s = s' ∧ g = g' ∧ f = f' ∧ p = p' := by
  have hd := congrArg String.data h
  rw [cacheKey_data, cacheKey_data] at hd
  obtain ⟨-, hd⟩ := List.append_inj hd rfl
  obtain ⟨hid, hd2⟩ := List.append_inj hd hlen
  injection hd2 with _ hd3
  obtain ⟨hlang, hb⟩ := lang_flagTail_inj _ _ s g f p s' g' f' p' hd3
  exact ⟨String.ext hid, String.ext hlang, hb.1, hb.2.1, hb.2.2.1, hb.2.2.2⟩

/-- Witness for the amended C8, applied at two equal-length identifiers. -/
theorem cacheKey_injective_same_id_length_witness :
    ("dQw4w9WgXcQ" : String) = "dQw4w9WgXcQ" ∧ ("en" : String) = "en" ∧
    true = true ∧ false = false ∧ true = true ∧ false = false :=
  cacheKey_injective_same_id_length "dQw4w9WgXcQ" "dQw4w9WgXcQ" "en" "en"
    true false true false true false true false rfl rfl


/-! ## C2 — lemmas about the pattern scans on identifier characters

An identifier character (`[A-Za-z0-9_-]`) is never `/`, `?`, `#`, `&`, `=`
or a newline, so no alternation can match at or after a position whose
remaining characters all lie in the identifier alphabet. -/

theorem altYoutuBe_idChars {l : List Char} (h : ∀ c ∈ l, isIdChar c = true) :
    altYoutuBe l = none := by
  unfold altYoutuBe
  split
  · exact absurd (h '/' (by simp)) (by decide)
  · rfl

theorem altV_idChars {l : List Char} (h : ∀ c ∈ l, isIdChar c = true) :
    altV l = none := by
  unfold altV
  split
  · exact absurd (h '/' (by simp)) (by decide)
  · rfl

theorem altU_idChars {l : List Char} (h : ∀ c ∈ l, isIdChar c = true) :
    altU l = none := by
  unfold altU
  split
  · exact absurd (h '/' (by simp)) (by decide)
  · rfl

theorem altEmbed_idChars {l : List Char} (h : ∀ c ∈ l, isIdChar c = true) :
    altEmbed l = none := by
  unfold altEmbed
  split
  · exact absurd (h '/' (by simp)) (by decide)
  · rfl

theorem altWatch_idChars {l : List Char} (h : ∀ c ∈ l, isIdChar c = true) :
    altWatch l = none := by
  unfold altWatch
  split
  · exact absurd (h '?' (by simp)) (by decide)
  · rfl

theorem altMatch_idChars : ∀ {l : List Char}, (∀ c ∈ l, isIdChar c = true) →
    altMatch l = none := by
  intro l h
  cases l with
  | nil => rfl
  | cons c rest =>
      have hrest : ∀ d ∈ rest, isIdChar d = true :=
        fun d hd => h d (List.mem_cons_of_mem c hd)
      by_cases hy : c = 'y'
      · subst hy
        exact altYoutuBe_idChars hrest
      by_cases hv : c = 'v'
      · subst hv
        exact altV_idChars hrest
      by_cases hs : c = '/'
      · exact absurd (h c (List.mem_cons_self c rest)) (by rw [hs]; decide)
      by_cases hee : c = 'e'
      · subst hee
        exact altEmbed_idChars hrest
      by_cases hw : c = 'w'
      · subst hw
        exact altWatch_idChars hrest
      · simp only [altMatch]
        rw [if_neg hy, if_neg hv, if_neg hs, if_neg hee, if_neg hw]

/-- No alternation fires at a `/` followed only by identifier characters. -/
theorem altMatch_slash_idChars {l : List Char} (h : ∀ c ∈ l, isIdChar c = true) :
    altMatch ('/' :: l) = none :=
  altU_idChars h

/-- No alternation fires at a word character (other than `v`) followed by
`/` and identifier characters. -/
theorem altMatch_word_slash {u : Char} (hu : isWordChar u = true)
    (hne : ¬(u = 'v')) (l : List Char) : altMatch (u :: '/' :: l) = none := by
  by_cases hy : u = 'y'
  · subst hy; rfl
  by_cases hs : u = '/'
  · exact absurd hu (by rw [hs]; decide)
  by_cases hee : u = 'e'
  · subst hee; rfl
  by_cases hw : u = 'w'
  · subst hw; rfl
  · simp only [altMatch]
    rw [if_neg hy, if_neg hne, if_neg hs, if_neg hee, if_neg hw]

theorem altU_word_slash (u : Char) (l : List Char)
    (h : ∀ c ∈ l, isIdChar c = true) : altU (u :: '/' :: l) = none := by
  unfold altU
  split
  · rename_i c2 tail heq
    injection heq with h1 heq2
    injection heq2 with h2 heq3
    subst heq3
    exact absurd (h '/' (by simp)) (by decide)
  · rfl

/-- No alternation fires at the `/` of `/X/` when `X` is followed by
identifier characters only (the `\/u\/\w\/` alternative would need another
`/` inside the identifier). -/
theorem altMatch_slash_word_slash (u : Char) (l : List Char)
    (h : ∀ c ∈ l, isIdChar c = true) : altMatch ('/' :: u :: '/' :: l) = none :=
  altU_word_slash u l h

theorem shortsPatTail2_idChars {l : List Char} (h : ∀ c ∈ l, isIdChar c = true) :
    shortsPatTail2 l = false := by
  unfold shortsPatTail2
  split
  · exact absurd (h '/' (by simp)) (by decide)
  · rfl

theorem shortsPatTail_idChars {l : List Char} (h : ∀ c ∈ l, isIdChar c = true) :
    shortsPatTail l = false := by
  unfold shortsPatTail
  split
  · exact absurd (h '/' (by simp)) (by decide)
  · rfl

theorem shortsPat_idChars {l : List Char} (h : ∀ c ∈ l, isIdChar c = true) :
    shortsPat l = false := by
  unfold shortsPat
  split
  · rename_i c rest
    rw [if_neg (fun he => absurd (h c (by simp)) (by rw [he]; decide))]
    exact shortsPatTail_idChars (fun d hd => h d (by simp [hd]))
  · rfl

theorem stdScan_cons_of_some {rest g : List Char} (h : stdScan rest = some g)
    {c : Char} (hc : ¬(c = '\n')) : stdScan (c :: rest) = some g := by
  simp only [stdScan, if_neg hc, h]

theorem stdScan_cons_none {rest : List Char} (h : stdScan rest = none)
    {c : Char} (hc : ¬(c = '\n')) (ha : altMatch (c :: rest) = none) :
    stdScan (c :: rest) = none := by
  simp only [stdScan, if_neg hc, h, ha]

theorem stdScan_cons_match {rest : List Char} (h : stdScan rest = none)
    {c : Char} (hc : ¬(c = '\n')) {k : Nat} (ha : altMatch (c :: rest) = some k) :
    stdScan (c :: rest) = some (groupNoStop (consumeOpt (List.drop k (c :: rest)))) := by
  simp only [stdScan, if_neg hc, h, ha]

theorem stdScan_idChars : ∀ {l : List Char}, (∀ c ∈ l, isIdChar c = true) →
    stdScan l = none := by
  intro l
  induction l with
  | nil => intro _; rfl
  | cons c rest ih =>
      intro h
      have hrest : ∀ d ∈ rest, isIdChar d = true :=
        fun d hd => h d (List.mem_cons_of_mem c hd)
      have hnl : ¬(c = '\n') := by
        intro he
        exact absurd (h c (List.mem_cons_self c rest)) (by rw [he]; decide)
      exact stdScan_cons_none (ih hrest) hnl (altMatch_idChars h)

theorem shortsScan_cons_of_some {rest g : List Char} (h : shortsScan rest = some g)
    {c : Char} (hc : ¬(c = '\n')) : shortsScan (c :: rest) = some g := by
  simp only [shortsScan, if_neg hc, h]

theorem shortsScan_cons_none {rest : List Char} (h : shortsScan rest = none)
    {c : Char} (hc : ¬(c = '\n')) (hp : shortsPat (c :: rest) = false) :
    shortsScan (c :: rest) = none := by
  simp only [shortsScan, if_neg hc, h, hp, Bool.false_eq_true, if_false]

theorem shortsScan_cons_match {rest : List Char} (h : shortsScan rest = none)
    {c : Char} (hc : ¬(c = '\n')) (hp : shortsPat (c :: rest) = true) :
    shortsScan (c :: rest) = some (groupNoStop (List.drop 19 (c :: rest))) := by
  simp only [shortsScan, if_neg hc, h, hp, if_true]

theorem shortsScan_idChars : ∀ {l : List Char}, (∀ c ∈ l, isIdChar c = true) →
    shortsScan l = none := by
  intro l
  induction l with
  | nil => intro _; rfl
  | cons c rest ih =>
      intro h
      have hrest : ∀ d ∈ rest, isIdChar d = true :=
        fun d hd => h d (List.mem_cons_of_mem c hd)
      have hnl : ¬(c = '\n') := by
        intro he
        exact absurd (h c (List.mem_cons_self c rest)) (by rw [he]; decide)
      exact shortsScan_cons_none (ih hrest) hnl (shortsPat_idChars h)

theorem head_ne_of_idChars {l : List Char} (h : ∀ c ∈ l, isIdChar c = true)
    {a : Char} (ha : isIdChar a = false) : l.head? ≠ some a := by
  intro he
  cases l with
  | nil => simp at he
  | cons c r =>
      simp only [List.head?_cons, Option.some.injEq] at he
      subst he
      exact absurd (h c (List.mem_cons_self c r)) (by simp [ha])

theorem dropLit_of_ne {a : Char} {l : List Char} (h : l.head? ≠ some a) :
    dropLit a l = l := by
  cases l with
  | nil => rfl
  | cons c r =>
      have : ¬(c = a) := fun he => h (by subst he; rfl)
      simp [dropLit, this]

theorem consumeOpt_idChars {l : List Char} (h : ∀ c ∈ l, isIdChar c = true)
    (hv : l.head? ≠ some 'v') : consumeOpt l = l := by
  rw [consumeOpt, dropLit_of_ne (head_ne_of_idChars h (by decide)),
    dropLit_of_ne hv, dropLit_of_ne (head_ne_of_idChars h (by decide))]

theorem groupNoStop_idChars : ∀ {l : List Char}, (∀ c ∈ l, isIdChar c = true) →
    groupNoStop l = l := by
  intro l
  induction l with
  | nil => intro _; rfl
  | cons c rest ih =>
      intro h
      have hc := h c (List.mem_cons_self c rest)
      have h1 : ¬(c = '#') := fun he => absurd hc (by rw [he]; decide)
      have h2 : ¬(c = '&') := fun he => absurd hc (by rw [he]; decide)
      have h3 : ¬(c = '?') := fun he => absurd hc (by rw [he]; decide)
      simp only [groupNoStop] at ih ⊢
      rw [List.takeWhile_cons]
      simp only [h1, h2, h3, decide_False, Bool.or_false, Bool.not_false, if_true]
      rw [ih (fun d hd => h d (List.mem_cons_of_mem c hd))]

/-! ### The standard pattern on each canonical URL form

Each proof walks the scan from the identifier backwards: no alternation
matches inside the identifier or between it and the marker, the marker's
alternation fires, and every earlier position defers to that later match
(the greedy `^.*` prefers it). -/

theorem stdScan_watch_marker (id : List Char) (hchars : ∀ c ∈ id, isIdChar c = true) :
    stdScan ('w' :: 'a' :: 't' :: 'c' :: 'h' :: '?' :: 'v' :: '=' ::id) = some id := by
  have h0 : stdScan id = none := stdScan_idChars hchars
  have h1 : stdScan ('=' ::id) = none := stdScan_cons_none h0 (by decide) rfl
  have h2 : stdScan ('v' :: '=' ::id) = none := stdScan_cons_none h1 (by decide) rfl
  have h3 : stdScan ('?' :: 'v' :: '=' ::id) = none := stdScan_cons_none h2 (by decide) rfl
  have h4 : stdScan ('h' :: '?' :: 'v' :: '=' ::id) = none := stdScan_cons_none h3 (by decide) rfl
  have h5 : stdScan ('c' :: 'h' :: '?' :: 'v' :: '=' ::id) = none :=
    stdScan_cons_none h4 (by decide) rfl
  have h6 : stdScan ('t' :: 'c' :: 'h' :: '?' :: 'v' :: '=' ::id) = none :=
    stdScan_cons_none h5 (by decide) rfl
  have h7 : stdScan ('a' :: 't' :: 'c' :: 'h' :: '?' :: 'v' :: '=' ::id) = none :=
    stdScan_cons_none h6 (by decide) rfl
  have h8 := stdScan_cons_match h7 (c := 'w') (by decide) (k := 6) rfl
  rw [show List.drop 6 ('w' :: 'a' :: 't' :: 'c' :: 'h' :: '?' :: 'v' :: '=' ::id) = 'v' :: '=' ::id from rfl,
    show consumeOpt ('v' :: '=' ::id) = id from rfl, groupNoStop_idChars hchars] at h8
  exact h8

theorem stdScan_youtuBe_marker (id : List Char)
    (hchars : ∀ c ∈ id, isIdChar c = true) (hv : id.head? ≠ some 'v') :
    stdScan ('y' :: 'o' :: 'u' :: 't' :: 'u' :: '.' :: 'b' :: 'e' :: '/' ::id) = some id := by
  have h0 : stdScan id = none := stdScan_idChars hchars
  have h1 : stdScan ('/' ::id) = none :=
    stdScan_cons_none h0 (by decide) (altMatch_slash_idChars hchars)
  have h2 : stdScan ('e' :: '/' ::id) = none := stdScan_cons_none h1 (by decide) rfl
  have h3 : stdScan ('b' :: 'e' :: '/' ::id) = none := stdScan_cons_none h2 (by decide) rfl
  have h4 : stdScan ('.' :: 'b' :: 'e' :: '/' ::id) = none := stdScan_cons_none h3 (by decide) rfl
  have h5 : stdScan ('u' :: '.' :: 'b' :: 'e' :: '/' ::id) = none :=
    stdScan_cons_none h4 (by decide) rfl
  have h6 : stdScan ('t' :: 'u' :: '.' :: 'b' :: 'e' :: '/' ::id) = none :=
    stdScan_cons_none h5 (by decide) rfl
  have h7 : stdScan ('u' :: 't' :: 'u' :: '.' :: 'b' :: 'e' :: '/' ::id) = none :=
    stdScan_cons_none h6 (by decide) rfl
  have h8 : stdScan ('o' :: 'u' :: 't' :: 'u' :: '.' :: 'b' :: 'e' :: '/' ::id) = none :=
    stdScan_cons_none h7 (by decide) rfl
  have h9 := stdScan_cons_match h8 (c := 'y') (by decide) (k := 9) rfl
  rw [show List.drop 9 ('y' :: 'o' :: 'u' :: 't' :: 'u' :: '.' :: 'b' :: 'e' :: '/' ::id) = id from rfl,
    consumeOpt_idChars hchars hv, groupNoStop_idChars hchars] at h9
  exact h9

theorem stdScan_v_marker (id : List Char)
    (hchars : ∀ c ∈ id, isIdChar c = true) (hv : id.head? ≠ some 'v') :
    stdScan ('v' :: '/' ::id) = some id := by
  have h0 : stdScan id = none := stdScan_idChars hchars
  have h1 : stdScan ('/' ::id) = none :=
    stdScan_cons_none h0 (by decide) (altMatch_slash_idChars hchars)
  have h2 := stdScan_cons_match h1 (c := 'v') (by decide) (k := 2) rfl
  rw [show List.drop 2 ('v' :: '/' ::id) = id from rfl,
    consumeOpt_idChars hchars hv, groupNoStop_idChars hchars] at h2
  exact h2

theorem stdScan_embed_marker (id : List Char)
    (hchars : ∀ c ∈ id, isIdChar c = true) (hv : id.head? ≠ some 'v') :
    stdScan ('e' :: 'm' :: 'b' :: 'e' :: 'd' :: '/' ::id) = some id := by
  have h0 : stdScan id = none := stdScan_idChars hchars
  have h1 : stdScan ('/' ::id) = none :=
    stdScan_cons_none h0 (by decide) (altMatch_slash_idChars hchars)
  have h2 : stdScan ('d' :: '/' ::id) = none := stdScan_cons_none h1 (by decide) rfl
  have h3 : stdScan ('e' :: 'd' :: '/' ::id) = none := stdScan_cons_none h2 (by decide) rfl
  have h4 : stdScan ('b' :: 'e' :: 'd' :: '/' ::id) = none := stdScan_cons_none h3 (by decide) rfl
  have h5 : stdScan ('m' :: 'b' :: 'e' :: 'd' :: '/' ::id) = none :=
    stdScan_cons_none h4 (by decide) rfl
  have h6 := stdScan_cons_match h5 (c := 'e') (by decide) (k := 6) rfl
  rw [show List.drop 6 ('e' :: 'm' :: 'b' :: 'e' :: 'd' :: '/' ::id) = id from rfl,
    consumeOpt_idChars hchars hv, groupNoStop_idChars hchars] at h6
  exact h6

theorem stdScan_u_marker (id : List Char) (u : Char)
    (hchars : ∀ c ∈ id, isIdChar c = true) (hv : id.head? ≠ some 'v')
    (hu : isWordChar u = true) :
    stdScan ('/' :: 'u' :: '/' ::u:: '/' ::id) = some id := by
  have hnl : ¬(u = '\n') := fun he => absurd hu (by rw [he]; decide)
  have h0 : stdScan id = none := stdScan_idChars hchars
  have h1 : stdScan ('/' ::id) = none :=
    stdScan_cons_none h0 (by decide) (altMatch_slash_idChars hchars)
  by_cases huv : u = 'v'
  · subst huv
    have h2 := stdScan_cons_match h1 (c := 'v') (by decide) (k := 2) rfl
    rw [show List.drop 2 ('v' :: '/' ::id) = id from rfl,
      consumeOpt_idChars hchars hv, groupNoStop_idChars hchars] at h2
    have h3 : stdScan ('/' :: 'v' :: '/' ::id) = some id := stdScan_cons_of_some h2 (by decide)
    have h4 : stdScan ('u' :: '/' :: 'v' :: '/' ::id) = some id :=
      stdScan_cons_of_some h3 (by decide)
    exact stdScan_cons_of_some h4 (by decide)
  · have h2 : stdScan (u:: '/' ::id) = none :=
      stdScan_cons_none h1 hnl (altMatch_word_slash hu huv id)
    have h3 : stdScan ('/' ::u:: '/' ::id) = none :=
      stdScan_cons_none h2 (by decide) (altMatch_slash_word_slash u id hchars)
    have h4 : stdScan ('u' :: '/' ::u:: '/' ::id) = none :=
      stdScan_cons_none h3 (by decide) rfl
    have ha : altMatch ('/' :: 'u' :: '/' ::u:: '/' ::id) = some 5 := by
      have e : altMatch ('/' :: 'u' :: '/' ::u:: '/' ::id) =
          if isWordChar u then some 5 else none := rfl
      rw [e, if_pos hu]
    have h5 := stdScan_cons_match h4 (c := '/') (by decide) ha
    rw [show List.drop 5 ('/' :: 'u' :: '/' ::u:: '/' ::id) = id from rfl,
      consumeOpt_idChars hchars hv, groupNoStop_idChars hchars] at h5
    exact h5

theorem stdScan_watchUrl (id : List Char) (hchars : ∀ c ∈ id, isIdChar c = true) :
    stdScan ('h' :: 't' :: 't' :: 'p' :: 's' :: ':' :: '/' :: '/' :: 'w' :: 'w' :: 'w' :: '.' :: 'y' :: 'o' :: 'u' :: 't' :: 'u' :: 'b' :: 'e' :: '.' :: 'c' :: 'o' :: 'm' :: '/' :: 'w' :: 'a' :: 't' :: 'c' :: 'h' :: '?' :: 'v' :: '=' ::id) = some id := by
  iterate 24 refine stdScan_cons_of_some ?_ (by decide)
  exact stdScan_watch_marker id hchars

theorem stdScan_youtuBeUrl (id : List Char) (hchars : ∀ c ∈ id, isIdChar c = true)
    (hv : id.head? ≠ some 'v') :
    stdScan ('h' :: 't' :: 't' :: 'p' :: 's' :: ':' :: '/' :: '/' :: 'y' :: 'o' :: 'u' :: 't' :: 'u' :: '.' :: 'b' :: 'e' :: '/' ::id) = some id := by
  iterate 8 refine stdScan_cons_of_some ?_ (by decide)
  exact stdScan_youtuBe_marker id hchars hv

theorem stdScan_vUrl (id : List Char) (hchars : ∀ c ∈ id, isIdChar c = true)
    (hv : id.head? ≠ some 'v') :
    stdScan ('h' :: 't' :: 't' :: 'p' :: 's' :: ':' :: '/' :: '/' :: 'w' :: 'w' :: 'w' :: '.' :: 'y' :: 'o' :: 'u' :: 't' :: 'u' :: 'b' :: 'e' :: '.' :: 'c' :: 'o' :: 'm' :: '/' :: 'v' :: '/' ::id) = some id := by
  iterate 24 refine stdScan_cons_of_some ?_ (by decide)
  exact stdScan_v_marker id hchars hv

theorem stdScan_embedUrl (id : List Char) (hchars : ∀ c ∈ id, isIdChar c = true)
    (hv : id.head? ≠ some 'v') :
    stdScan ('h' :: 't' :: 't' :: 'p' :: 's' :: ':' :: '/' :: '/' :: 'w' :: 'w' :: 'w' :: '.' :: 'y' :: 'o' :: 'u' :: 't' :: 'u' :: 'b' :: 'e' :: '.' :: 'c' :: 'o' :: 'm' :: '/' :: 'e' :: 'm' :: 'b' :: 'e' :: 'd' :: '/' ::id) = some id := by
  iterate 24 refine stdScan_cons_of_some ?_ (by decide)
  exact stdScan_embed_marker id hchars hv

theorem stdScan_uUrl (id : List Char) (u : Char)
    (hchars : ∀ c ∈ id, isIdChar c = true) (hv : id.head? ≠ some 'v')
    (hu : isWordChar u = true) :
    stdScan ('h' :: 't' :: 't' :: 'p' :: 's' :: ':' :: '/' :: '/' :: 'w' :: 'w' :: 'w' :: '.' :: 'y' :: 'o' :: 'u' :: 't' :: 'u' :: 'b' :: 'e' :: '.' :: 'c' :: 'o' :: 'm' :: '/' :: 'u' :: '/' ::u:: '/' ::id) = some id := by
  iterate 23 refine stdScan_cons_of_some ?_ (by decide)
  exact stdScan_u_marker id u hchars hv hu

/-! ### The shorts URL: the standard pattern rejects it, the shorts pattern
extracts the identifier -/

theorem stdScan_shortsUrl (id : List Char) (hchars : ∀ c ∈ id, isIdChar c = true) :
    stdScan ('h' :: 't' :: 't' :: 'p' :: 's' :: ':' :: '/' :: '/' :: 'w' :: 'w' :: 'w' :: '.' :: 'y' :: 'o' :: 'u' :: 't' :: 'u' :: 'b' :: 'e' :: '.' :: 'c' :: 'o' :: 'm' :: '/' :: 's' :: 'h' :: 'o' :: 'r' :: 't' :: 's' :: '/' ::id) = none := by
  iterate 30 refine stdScan_cons_none ?_ (by decide) rfl
  refine stdScan_cons_none ?_ (by decide) (altMatch_slash_idChars hchars)
  exact stdScan_idChars hchars

theorem shortsScan_marker (id : List Char) (hchars : ∀ c ∈ id, isIdChar c = true) :
    shortsScan ('y' :: 'o' :: 'u' :: 't' :: 'u' :: 'b' :: 'e' :: '.' :: 'c' :: 'o' :: 'm' :: '/' :: 's' :: 'h' :: 'o' :: 'r' :: 't' :: 's' :: '/' ::id) = some id := by
  have t0 : shortsScan id = none := shortsScan_idChars hchars
  have t1 : shortsScan ('/' ::id) = none := shortsScan_cons_none t0 (by decide) rfl
  have t2 : shortsScan ('s' :: '/' ::id) = none := shortsScan_cons_none t1 (by decide) rfl
  have t3 : shortsScan ('t' :: 's' :: '/' ::id) = none :=
    shortsScan_cons_none t2 (by decide) rfl
  have t4 : shortsScan ('r' :: 't' :: 's' :: '/' ::id) = none :=
    shortsScan_cons_none t3 (by decide) rfl
  have t5 : shortsScan ('o' :: 'r' :: 't' :: 's' :: '/' ::id) = none :=
    shortsScan_cons_none t4 (by decide) rfl
  have t6 : shortsScan ('h' :: 'o' :: 'r' :: 't' :: 's' :: '/' ::id) = none :=
    shortsScan_cons_none t5 (by decide) rfl
  have t7 : shortsScan ('s' :: 'h' :: 'o' :: 'r' :: 't' :: 's' :: '/' ::id) = none :=
    shortsScan_cons_none t6 (by decide) rfl
  have t8 : shortsScan ('/' :: 's' :: 'h' :: 'o' :: 'r' :: 't' :: 's' :: '/' ::id) = none :=
    shortsScan_cons_none t7 (by decide) rfl
  have t9 : shortsScan ('m' :: '/' :: 's' :: 'h' :: 'o' :: 'r' :: 't' :: 's' :: '/' ::id) = none :=
    shortsScan_cons_none t8 (by decide) rfl
  have t10 : shortsScan ('o' :: 'm' :: '/' :: 's' :: 'h' :: 'o' :: 'r' :: 't' :: 's' :: '/' ::id) = none :=
    shortsScan_cons_none t9 (by decide) rfl
  have t11 : shortsScan ('c' :: 'o' :: 'm' :: '/' :: 's' :: 'h' :: 'o' :: 'r' :: 't' :: 's' :: '/' ::id) = none :=
    shortsScan_cons_none t10 (by decide) rfl
  have t12 : shortsScan ('.' :: 'c' :: 'o' :: 'm' :: '/' :: 's' :: 'h' :: 'o' :: 'r' :: 't' :: 's' :: '/' ::id) = none :=
    shortsScan_cons_none t11 (by decide) rfl
  have t13 : shortsScan ('e' :: '.' :: 'c' :: 'o' :: 'm' :: '/' :: 's' :: 'h' :: 'o' :: 'r' :: 't' :: 's' :: '/' ::id) = none :=
    shortsScan_cons_none t12 (by decide) rfl
  have t14 : shortsScan ('b' :: 'e' :: '.' :: 'c' :: 'o' :: 'm' :: '/' :: 's' :: 'h' :: 'o' :: 'r' :: 't' :: 's' :: '/' ::id) = none :=
    shortsScan_cons_none t13 (by decide) rfl
  have t15 : shortsScan ('u' :: 'b' :: 'e' :: '.' :: 'c' :: 'o' :: 'm' :: '/' :: 's' :: 'h' :: 'o' :: 'r' :: 't' :: 's' :: '/' ::id) = none :=
    shortsScan_cons_none t14 (by decide) rfl
  have t16 : shortsScan ('t' :: 'u' :: 'b' :: 'e' :: '.' :: 'c' :: 'o' :: 'm' :: '/' :: 's' :: 'h' :: 'o' :: 'r' :: 't' :: 's' :: '/' ::id) = none :=
    shortsScan_cons_none t15 (by decide) rfl
  have t17 : shortsScan ('u' :: 't' :: 'u' :: 'b' :: 'e' :: '.' :: 'c' :: 'o' :: 'm' :: '/' :: 's' :: 'h' :: 'o' :: 'r' :: 't' :: 's' :: '/' ::id) = none :=
    shortsScan_cons_none t16 (by decide) rfl
  have t18 : shortsScan ('o' :: 'u' :: 't' :: 'u' :: 'b' :: 'e' :: '.' :: 'c' :: 'o' :: 'm' :: '/' :: 's' :: 'h' :: 'o' :: 'r' :: 't' :: 's' :: '/' ::id) = none :=
    shortsScan_cons_none t17 (by decide) rfl
  have tM := shortsScan_cons_match t18 (c := 'y') (by decide) rfl
  rw [show List.drop 19 ('y' :: 'o' :: 'u' :: 't' :: 'u' :: 'b' :: 'e' :: '.' :: 'c' :: 'o' :: 'm' :: '/' :: 's' :: 'h' :: 'o' :: 'r' :: 't' :: 's' :: '/' ::id) = id from rfl,
    groupNoStop_idChars hchars] at tM
  exact tM

theorem shortsScan_shortsUrl (id : List Char) (hchars : ∀ c ∈ id, isIdChar c = true) :
    shortsScan ('h' :: 't' :: 't' :: 'p' :: 's' :: ':' :: '/' :: '/' :: 'w' :: 'w' :: 'w' :: '.' :: 'y' :: 'o' :: 'u' :: 't' :: 'u' :: 'b' :: 'e' :: '.' :: 'c' :: 'o' :: 'm' :: '/' :: 's' :: 'h' :: 'o' :: 'r' :: 't' :: 's' :: '/' ::id) = some id := by
  iterate 12 refine shortsScan_cons_of_some ?_ (by decide)
  exact shortsScan_marker id hchars

/-! ### Assembling `getVideoId` -/

theorem getVideoId_of_std {url : String} {g : List Char}
    (h : stdScan url.data = some g) (hlen : g.length = 11) :
    getVideoId url = some (String.mk g) := by
  have hne : ¬(url.data = []) := by
    intro he
    rw [he] at h
    simp [stdScan] at h
  simp [getVideoId, hne, h, hlen]

theorem getVideoId_of_shorts {url : String} {g : List Char}
    (hstd : stdScan url.data = none) (h : shortsScan url.data = some g)
    (hne : g ≠ []) : getVideoId url = some (String.mk g) := by
  have hn : ¬(url.data = []) := by
    intro he
    rw [he] at h
    simp [shortsScan] at h
  simp [getVideoId, hn, hstd, h, hne]

theorem getVideoId_none_of_scans {url : String} (hstd : stdScan url.data = none)
    (hsh : shortsScan url.data = none) : getVideoId url = none := by
  by_cases he : url.data = []
  · simp [getVideoId, he]
  · simp [getVideoId, he, hstd, hsh]

/-! ### C2 — claim theorems -/

/-- C2 counterexample: `https://youtu.be/vabcdefghij` carries the valid
11-character identifier `vabcdefghij`, but `getVideoId` returns `null`: the
optional `v?` after the alternation swallows the identifier's leading `v`,
leaving a 10-character group that fails the length check, and the shorts
pattern does not apply. -/
theorem getVideoId_v_prefixed_id_cex :
    getVideoId "https://youtu.be/vabcdefghij" = none ∧
    ("vabcdefghij" : String).length = 11 ∧
    (∀ c ∈ ("vabcdefghij" : String).data, isIdChar c = true) :=
  ⟨rfl, rfl, by decide⟩

/-- C2 (amended): for every 11-character identifier over `[A-Za-z0-9_-]`,
`getVideoId` extracts it from a `watch?v=` URL and from a shorts URL
unconditionally, and from the path-style canonical forms (`youtu.be/`, `/v/`,
`/embed/`, `/u/<w>/`) provided the identifier does not begin with `v`
(otherwise the `v?` marker consumes its first character and extraction
fails); the empty string and any string matched by neither pattern yield
`null` rather than an error. -/
theorem getVideoId_canonical_urls :
    (∀ id : List Char, id.length = 11 → (∀ c ∈ id, isIdChar c = true) →
      getVideoId ⟨"https://www.youtube.com/watch?v=".data ++ id⟩ = some ⟨id⟩ ∧
      getVideoId ⟨"https://www.youtube.com/shorts/".data ++ id⟩ = some ⟨id⟩ ∧
      (id.head? ≠ some 'v' →
        getVideoId ⟨"https://youtu.be/".data ++ id⟩ = some ⟨id⟩ ∧
        getVideoId ⟨"https://www.youtube.com/v/".data ++ id⟩ = some ⟨id⟩ ∧
        getVideoId ⟨"https://www.youtube.com/embed/".data ++ id⟩ = some ⟨id⟩ ∧
        (∀ u : Char, isWordChar u = true →
          getVideoId ⟨"https://www.youtube.com/u/".data ++ u :: '/' :: id⟩ =
            some ⟨id⟩))) ∧
    getVideoId "" = none ∧
    (∀ s : String, stdScan s.data = none → shortsScan s.data = none →
      getVideoId s = none) := by
  refine ⟨fun id hlen hchars => ?_, rfl, fun s h1 h2 => getVideoId_none_of_scans h1 h2⟩
  have hnil : id ≠ [] := by
    intro he
    rw [he] at hlen
    simp at hlen
  refine ⟨getVideoId_of_std (stdScan_watchUrl id hchars) hlen,
    getVideoId_of_shorts (stdScan_shortsUrl id hchars)
      (shortsScan_shortsUrl id hchars) hnil,
    fun hv => ⟨getVideoId_of_std (stdScan_youtuBeUrl id hchars hv) hlen,
      getVideoId_of_std (stdScan_vUrl id hchars hv) hlen,
      getVideoId_of_std (stdScan_embedUrl id hchars hv) hlen,
      fun u hu => getVideoId_of_std (stdScan_uUrl id u hchars hv hu) hlen⟩⟩

/-- Witness for the amended C2 at the spec's own scenario identifier. -/
theorem getVideoId_canonical_urls_witness :
    getVideoId "https://youtu.be/dQw4w9WgXcQ" = some "dQw4w9WgXcQ" ∧
    getVideoId "https://www.youtube.com/watch?v=dQw4w9WgXcQ" = some "dQw4w9WgXcQ" ∧
    getVideoId "https://www.youtube.com/shorts/dQw4w9WgXcQ" = some "dQw4w9WgXcQ" ∧
    getVideoId "https://www.youtube.com/u/w/dQw4w9WgXcQ" = some "dQw4w9WgXcQ" := by
  have h := getVideoId_canonical_urls.1 "dQw4w9WgXcQ".data (by decide) (by decide)
  have h2 := h.2.2 (by decide)
  exact ⟨h2.1, h.1, h.2.1, h2.2.2.2 'w' (by decide)⟩
